import Mathlib

/-!
Shallow embedding of the Loyalfly Share client (upload/list/rename/delete
lifecycle, hash router, file viewer) and proofs of its observable contract.
All definitions mirror the source component by component; store effects
(encode, create, list, update, delete) are parameterised by their outcome so
that every handler is a pure function of its inputs and the injected effect
results.
-/

/-- One stored file record, as produced by `fetchFiles` in the source
(document data spread together with the document id). `createdAt` is the
server-assigned timestamp, modelled as a natural number. -/
structure UploadedFile where
  id : String
  displayName : String
  dataUrl : String
  size : Nat
  type : String
  createdAt : Nat
deriving Repr, DecidableEq

/-- The part of a browser `File` object the upload pipeline reads. -/
structure FileInput where
  name : String
  size : Nat
  type : String
deriving Repr, DecidableEq

/-- `acceptedFileTypes` from the source. -/
def acceptedFileTypes : List String :=
  ["image/svg+xml", "image/jpeg", "image/png", "application/pdf"]

/-- `MAX_FILE_SIZE_BYTES = 750 * 1024` from the source. -/
def MAX_FILE_SIZE_BYTES : Nat := 750 * 1024

/-- Alert text for a rejected MIME type. -/
def invalidTypeMsg : String :=
  "Formato de archivo no válido. Por favor sube un SVG, JPG, PNG, o PDF."

/-- Alert text for an oversize file (the source interpolates 750 into the
template literal). -/
def tooLargeMsg : String :=
  "El archivo es demasiado grande. El límite es de 750 KB para evitar errores en la base de datos."

/-- Alert text raised by the catch block of `handleUpload`. -/
def uploadErrorMsg : String := "Hubo un error al subir el archivo."

/-- Stable insertion of a record into a list kept in descending `createdAt`
order; used to model the ordered query result of the store. -/
def insertDesc (r : UploadedFile) : List UploadedFile → List UploadedFile
  | [] => [r]
  | x :: xs => if r.createdAt ≤ x.createdAt then x :: insertDesc r xs else r :: x :: xs

/-- Descending-by-`createdAt` stable sort of the store contents. -/
def sortByCreatedAtDesc : List UploadedFile → List UploadedFile
  | [] => []
  | x :: xs => insertDesc x (sortByCreatedAtDesc xs)

/-- `fetchFiles`: read every record of the store ordered by `createdAt`
descending; the result replaces the in-memory list wholesale. -/
def fetchFiles (store : List UploadedFile) : List UploadedFile :=
  sortByCreatedAtDesc store

/-- Observable outcome of one `handleUpload` call: store contents after the
call, in-memory list after the call, final value of the in-progress flag,
whether the in-progress flag was ever set during the call, and the alert
surfaced to the user (if any). -/
structure UploadResult where
  store : List UploadedFile
  files : List UploadedFile
  isUploading : Bool
  flagWasSet : Bool
  alerted : Option String
deriving Repr, DecidableEq

/-- `handleUpload` from the source. `encodeRes` is the outcome of
`fileToDataURL` (the encoder), `createRes` the outcome of `addDoc` (carrying
the fresh document id), `listOk` whether the subsequent `fetchFiles` read
succeeds, `serverTime` the server timestamp assigned on creation, and
`isUploading0` the in-progress flag before the call. Validation rejects
first on MIME type, then on size; only then is the flag set, the file
encoded, the record created and the list reloaded; any thrown step lands in
the catch block (alert) and the finally block clears the flag. -/
def handleUpload (encodeRes : Except Unit String) (createRes : Except Unit String)
    (listOk : Bool) (serverTime : Nat) (isUploading0 : Bool)
    (store files : List UploadedFile) (f : FileInput) : UploadResult :=
  if ¬ acceptedFileTypes.contains f.type then
    ⟨store, files, isUploading0, false, some invalidTypeMsg⟩
  else if f.size > MAX_FILE_SIZE_BYTES then
    ⟨store, files, isUploading0, false, some tooLargeMsg⟩
  else
    match encodeRes with
    | .error _ => ⟨store, files, false, true, some uploadErrorMsg⟩
    | .ok dataUrl =>
      match createRes with
      | .error _ => ⟨store, files, false, true, some uploadErrorMsg⟩
      | .ok newId =>
        let newStore := store ++ [⟨newId, f.name, dataUrl, f.size, f.type, serverTime⟩]
        if listOk then
          ⟨newStore, fetchFiles newStore, false, true, none⟩
        else
          ⟨newStore, files, false, true, some uploadErrorMsg⟩

/-- Does the first character list start with the second (the pattern)?
Executable model of the JavaScript string method of the same behaviour. -/
def charListStartsWith : List Char → List Char → Bool
  | _, [] => true
  | [], _ :: _ => false
  | c :: cs, d :: ds => c == d && charListStartsWith cs ds

/-- `s.startsWith(pat)` on strings, via their character lists. -/
def strStartsWith (s pat : String) : Bool :=
  charListStartsWith s.toList pat.toList

/-- Split a character list on a separator character; a list with no
separator yields one group, and adjacent separators yield empty groups,
exactly as the JavaScript `split` does for a one-character separator. -/
def splitCharList (sep : Char) : List Char → List (List Char)
  | [] => [[]]
  | c :: cs =>
    let rest := splitCharList sep cs
    if c == sep then [] :: rest
    else
      match rest with
      | [] => [[c]]
      | g :: gs => (c :: g) :: gs

/-- `s.trim()` on strings: strip leading and trailing whitespace. -/
def strTrim (s : String) : String :=
  String.mk (((s.toList.dropWhile Char.isWhitespace).reverse.dropWhile Char.isWhitespace).reverse)

/-- Alert text raised by the catch block of `handleSaveEdit`. -/
def renameErrorMsg : String := "Hubo un error al cambiar el nombre."

/-- Alert text raised by the catch block of `handleDelete`. -/
def deleteErrorMsg : String := "Hubo un error al eliminar el archivo."

/-- Rewrite the `displayName` of the record with the given id, leaving every
other record untouched. Models `updateDoc` on the store, and the `setFiles`
map of `handleSaveEdit` on the in-memory list (both use the same per-record
update keyed on the id). -/
def updateDisplayName (l : List UploadedFile) (id name : String) : List UploadedFile :=
  l.map (fun r => if r.id == id then { r with displayName := name } else r)

/-- The state `handleSaveEdit` reads: in-memory list, record being edited
(if any), and the edit buffer. -/
structure EditState where
  files : List UploadedFile
  editingFile : Option UploadedFile
  newDisplayName : String
deriving Repr, DecidableEq

/-- Observable outcome of one `handleSaveEdit` call. -/
structure SaveEditResult where
  store : List UploadedFile
  files : List UploadedFile
  editingFile : Option UploadedFile
  newDisplayName : String
  alerted : Option String
deriving Repr, DecidableEq

/-- `handleSaveEdit` from the source: a commit does nothing unless a record
is in edit mode and the buffer is non-empty after trimming; then it calls
`updateDoc` with the trimmed name, on success maps the trimmed name over
the in-memory list, on failure alerts, and in the finally block exits edit
mode and clears the buffer. -/
def handleSaveEdit (updateOk : Bool) (store : List UploadedFile)
    (st : EditState) : SaveEditResult :=
  match st.editingFile with
  | some ef =>
    if strTrim st.newDisplayName != "" then
      if updateOk then
        ⟨updateDisplayName store ef.id (strTrim st.newDisplayName),
         updateDisplayName st.files ef.id (strTrim st.newDisplayName), none, "", none⟩
      else
        ⟨store, st.files, none, "", some renameErrorMsg⟩
    else ⟨store, st.files, st.editingFile, st.newDisplayName, none⟩
  | none => ⟨store, st.files, st.editingFile, st.newDisplayName, none⟩

/-- Observable outcome of one `handleDelete` call. -/
structure DeleteResult where
  store : List UploadedFile
  files : List UploadedFile
  alerted : Option String
deriving Repr, DecidableEq

/-- `handleDelete` from the source: a confirmation guard, then `deleteDoc`
on the record id; on success the in-memory list drops every record with
that id, on failure an alert is surfaced and the list is untouched. -/
def handleDelete (confirmed deleteOk : Bool) (store files : List UploadedFile)
    (target : UploadedFile) : DeleteResult :=
  if ¬ confirmed then ⟨store, files, none⟩
  else if deleteOk then
    ⟨store.filter (fun r => r.id != target.id),
     files.filter (fun r => r.id != target.id), none⟩
  else ⟨store, files, some deleteErrorMsg⟩

/-- Transient copy-indicator state: `copiedUrlId` is the single React state
cell, `pendingClears` the expiry instants of every `setTimeout` callback
(each callback sets `copiedUrlId` to `null`) that has not yet fired. -/
structure CopyState where
  copiedUrlId : Option String
  pendingClears : List Nat
deriving Repr, DecidableEq

/-- `handleCopyUrl` from the source, at instant `now` (milliseconds): if
the clipboard write resolves, set the indicator to this record id and
schedule a clear callback 2000 ms out. The previously scheduled callbacks
are left in place — the source never calls `clearTimeout`. -/
def handleCopyUrl (clipboardOk : Bool) (st : CopyState) (id : String)
    (now : Nat) : CopyState :=
  if clipboardOk then ⟨some id, st.pendingClears ++ [now + 2000]⟩ else st

/-- Fire every scheduled clear callback due by instant `now`: each one sets
the indicator to `none` unconditionally. -/
def fireDueTimers (st : CopyState) (now : Nat) : CopyState :=
  if st.pendingClears.any (fun e => e ≤ now) then
    ⟨none, st.pendingClears.filter (fun e => now < e)⟩
  else st

/-- A copy action observed on the event loop: timers due at instant `t`
fire first, then `handleCopyUrl` runs. -/
def copyAt (clipboardOk : Bool) (st : CopyState) (id : String) (t : Nat) : CopyState :=
  handleCopyUrl clipboardOk (fireDueTimers st t) id t

/-- The list row for `fileId` renders the copied indicator exactly when
`copiedUrlId === file.id`. -/
def showsCopied (st : CopyState) (fileId : String) : Bool :=
  st.copiedUrlId == some fileId

/-- The document data the viewer fetches (the stored record without its
id, the `Omit` type of the source). -/
structure FileDoc where
  displayName : String
  dataUrl : String
  size : Nat
  type : String
  createdAt : Nat
deriving Repr, DecidableEq

/-- Outcome of the single `getDoc` call of the viewer. -/
inductive FetchResult
  | found (f : FileDoc)
  | notFound
  | threw
deriving Repr, DecidableEq

/-- The three state cells of the `FileViewer` component. -/
structure ViewerState where
  file : Option FileDoc
  error : Option String
  isLoading : Bool
deriving Repr, DecidableEq

/-- Not-found message set by the viewer. -/
def notFoundMsg : String := "El archivo no fue encontrado."

/-- Generic fetch-failure message set by the viewer. -/
def loadErrorMsg : String := "Hubo un error al cargar el archivo."

/-- The `fetchFile` effect of `FileViewer`: on a snapshot that exists, store
the document; on a missing snapshot, set the not-found message; on a thrown
read, set the generic message; the finally block always clears `isLoading`. -/
def fetchFileEffect : FetchResult → ViewerState
  | .found f => ⟨some f, none, false⟩
  | .notFound => ⟨none, some notFoundMsg, false⟩
  | .threw => ⟨none, some loadErrorMsg, false⟩

/-- What the `FileViewer` component returns: a spinner, the error view (its
message plus the link back to the home route), an image element sourced from
the data URL, an embedded PDF frame, or `nothing` (the trailing
`return null`). -/
inductive ViewerRender
  | spinner
  | errorView (msg homeLink : String)
  | imageView (src alt : String)
  | pdfView (src title : String)
  | nothing
deriving Repr, DecidableEq

/-- The render branch of `FileViewer`: loading spinner, else error view
(always carrying the `href="/"` home link), else branch on the file type —
types starting with `image/` render an image from the data URL, the PDF
type renders an embedded frame, anything else falls through to
`return null`. -/
def renderViewer (st : ViewerState) : ViewerRender :=
  if st.isLoading then .spinner
  else
    match st.error with
    | some msg => .errorView msg "/"
    | none =>
      match st.file with
      | some f =>
        if strStartsWith f.type "image/" then .imageView f.dataUrl f.displayName
        else if f.type == "application/pdf" then .pdfView f.dataUrl f.displayName
        else .nothing
      | none => .nothing

/-- Router state: current path (`home` or `view`) and the file id when on
`view`. -/
structure Route where
  path : String
  id : Option String
deriving Repr, DecidableEq

/-- JavaScript truthiness of `parts[1]`: present and non-empty. -/
def jsTruthy : Option String → Bool
  | none => false
  | some s => s != ""

/-- The fragment split of `handleHashChange`: drop the leading `#`, split
on `/`, keep only non-empty segments. -/
def routeParts (hash : String) : List String :=
  (((splitCharList (Char.ofNat 47) (hash.toList.drop 1)).map String.mk).filter (fun p => p != ""))

/-- `handleHashChange` from the source: if segment 0 is `view` and segment 1
is truthy, the route is `view` with that id; otherwise `home`. -/
def handleHashChange (hash : String) : Route :=
  let parts := routeParts hash
  if parts[0]? == some "view" && jsTruthy parts[1]? then ⟨"view", parts[1]?⟩
  else ⟨"home", none⟩

/-- Which top-level component `App` mounts. -/
inductive Mounted
  | viewer (fileId : String)
  | uploader
deriving Repr, DecidableEq

/-- The mount decision of `App`: the viewer exactly when the route path is
`view` and the route id is truthy. -/
def appMount (route : Route) : Mounted :=
  match route.id with
  | some fid => if route.path == "view" && fid != "" then .viewer fid else .uploader
  | none => .uploader

/-- Inserting into a descending-sorted list permutes consing. -/
theorem insertDesc_perm (r : UploadedFile) (l : List UploadedFile) :
    List.Perm (insertDesc r l) (r :: l) := by
  induction l with
  | nil => simp [insertDesc]
  | cons x xs ih =>
    rw [insertDesc]
    by_cases h : r.createdAt ≤ x.createdAt
    · simp only [h, if_true]
      exact (ih.cons x).trans (List.Perm.swap r x xs)
    · simp [h]

/-- The store read returns a permutation of the store contents. -/
theorem sortByCreatedAtDesc_perm (l : List UploadedFile) :
    List.Perm (sortByCreatedAtDesc l) l := by
  induction l with
  | nil => simp [sortByCreatedAtDesc]
  | cons x xs ih => exact (insertDesc_perm x _).trans (ih.cons x)

/-- Inserting into a descending-sorted list keeps it descending-sorted. -/
theorem insertDesc_sorted (r : UploadedFile) (l : List UploadedFile)
    (h : l.Pairwise (fun a b => b.createdAt ≤ a.createdAt)) :
    (insertDesc r l).Pairwise (fun a b => b.createdAt ≤ a.createdAt) := by
  induction l with
  | nil => simp [insertDesc]
  | cons x xs ih =>
    rw [List.pairwise_cons] at h
    rw [insertDesc]
    by_cases hle : r.createdAt ≤ x.createdAt
    · simp only [hle, if_true]
      rw [List.pairwise_cons]
      refine ⟨fun y hy => ?_, ih h.2⟩
      rcases List.mem_cons.mp (((insertDesc_perm r xs).mem_iff).mp hy) with rfl | hy
      · exact hle
      · exact h.1 y hy
    · simp only [hle, if_false]
      rw [List.pairwise_cons]
      refine ⟨fun y hy => ?_, List.pairwise_cons.mpr h⟩
      rcases List.mem_cons.mp hy with rfl | hy
      · exact Nat.le_of_lt (Nat.lt_of_not_le hle)
      · exact Nat.le_trans (h.1 y hy) (Nat.le_of_lt (Nat.lt_of_not_le hle))

/-- The store read returns a list sorted by `createdAt` descending. -/
theorem sortByCreatedAtDesc_sorted (l : List UploadedFile) :
    (sortByCreatedAtDesc l).Pairwise (fun a b => b.createdAt ≤ a.createdAt) := by
  induction l with
  | nil => simp [sortByCreatedAtDesc]
  | cons x xs ih => exact insertDesc_sorted x _ ih

/-- When record ids are duplicate-free and the target is listed, dropping
every record with the target id is exactly erasing the target record. -/
theorem filter_id_ne_eq_erase (files : List UploadedFile) (target : UploadedFile)
    (hnd : (files.map (fun r => r.id)).Nodup) (hmem : target ∈ files) :
    files.filter (fun r => r.id != target.id) = files.erase target := by
  induction files with
  | nil => cases hmem
  | cons f fs ih =>
    rw [List.map_cons, List.nodup_cons] at hnd
    by_cases hid : f.id = target.id
    · have hft : f = target := by
        rcases List.mem_cons.mp hmem with he | hmem2
        · exact he.symm
        · exact absurd (hid ▸ List.mem_map_of_mem (fun r => r.id) hmem2) hnd.1
      have hbeq : (f == target) = true := beq_iff_eq.mpr hft
      rw [List.filter_cons, List.erase_cons, if_pos hbeq]
      simp only [hid, bne_self_eq_false, Bool.false_eq_true, if_false]
      apply List.filter_eq_self.mpr
      intro r hr
      have hne : r.id ≠ target.id := by
        intro hrt
        exact hnd.1 (hid ▸ hrt ▸ List.mem_map_of_mem (fun r => r.id) hr)
      simpa using hne
    · have hft : f ≠ target := fun he => hid (he ▸ rfl)
      have hbeq : (f == target) = false := by
        simpa using hft
      have hmem' : target ∈ fs := by
        rcases List.mem_cons.mp hmem with he | hmem2
        · exact absurd he.symm hft
        · exact hmem2
      have hpf : (f.id != target.id) = true := by
        simpa using hid
      rw [List.filter_cons, List.erase_cons]
      simp only [hpf, hbeq, Bool.false_eq_true, if_false, if_true]
      rw [ih hnd.2 hmem']

/-- Claim C1: a file whose MIME type is outside the accepted set or whose
byte size exceeds the 750 KiB ceiling is rejected by `handleUpload` with a
user-visible alert, no store create is issued (the store is unchanged), and
the in-memory list is unchanged; moreover the MIME-type check runs before
the size check — a file with an unaccepted type is reported with the
type message regardless of its size. -/
theorem C1_upload_validation (enc cre : Except Unit String) (listOk : Bool)
    (t : Nat) (u0 : Bool) (store files : List UploadedFile) (f : FileInput)
    (h : f.type ∉ acceptedFileTypes ∨ f.size > MAX_FILE_SIZE_BYTES) :
    (handleUpload enc cre listOk t u0 store files f).store = store ∧
    (handleUpload enc cre listOk t u0 store files f).files = files ∧
    (handleUpload enc cre listOk t u0 store files f).alerted.isSome = true ∧
    (f.type ∉ acceptedFileTypes →
      (handleUpload enc cre listOk t u0 store files f).alerted = some invalidTypeMsg) := by
  by_cases hmem : f.type ∈ acceptedFileTypes
  · have hsize : f.size > MAX_FILE_SIZE_BYTES := by
      rcases h with h | h
      · exact absurd hmem h
      · exact h
    have hc : acceptedFileTypes.contains f.type = true := List.elem_iff.mpr hmem
    refine ⟨?_, ?_, ?_, fun habs => absurd hmem habs⟩ <;>
      simp [handleUpload, hc, hsize, hmem]
  · have hc : acceptedFileTypes.contains f.type = false := by
      rw [Bool.eq_false_iff]
      intro hc
      exact hmem (List.elem_iff.mp hc)
    refine ⟨?_, ?_, ?_, fun _ => ?_⟩ <;>
      simp [handleUpload, hc, hmem]

/-- Witness for C1 at a concrete rejected input: a 10-byte `text/plain`
file is turned away with the MIME message and nothing changes. -/
theorem C1_upload_validation_witness :
    ((⟨"a.txt", 10, "text/plain"⟩ : FileInput).type ∉ acceptedFileTypes ∨
      (⟨"a.txt", 10, "text/plain"⟩ : FileInput).size > MAX_FILE_SIZE_BYTES) ∧
    ((handleUpload (.ok "d") (.ok "i") true 0 false [] [] ⟨"a.txt", 10, "text/plain"⟩).store = [] ∧
     (handleUpload (.ok "d") (.ok "i") true 0 false [] [] ⟨"a.txt", 10, "text/plain"⟩).files = [] ∧
     (handleUpload (.ok "d") (.ok "i") true 0 false [] [] ⟨"a.txt", 10, "text/plain"⟩).alerted.isSome = true ∧
     ((⟨"a.txt", 10, "text/plain"⟩ : FileInput).type ∉ acceptedFileTypes →
       (handleUpload (.ok "d") (.ok "i") true 0 false [] [] ⟨"a.txt", 10, "text/plain"⟩).alerted =
         some invalidTypeMsg)) :=
  ⟨Or.inl (by decide),
   C1_upload_validation (.ok "d") (.ok "i") true 0 false [] [] ⟨"a.txt", 10, "text/plain"⟩
     (Or.inl (by decide))⟩

/-- Claim C2: for a file that passes validation, `handleUpload` sets the
in-progress flag and clears it again; when the encode, the create and the
reload all succeed it creates exactly one store record carrying the
original filename as `displayName`, the encoded payload, the file size and
MIME type, and the server-assigned timestamp, and it replaces the in-memory
list by a full reload of the store (a permutation of the whole store,
ordered by `createdAt` descending — not an incremental append); when any
step fails it surfaces the upload error alert, clears the flag and leaves
the in-memory list unchanged. -/
theorem C2_upload_sequence (enc cre : Except Unit String) (listOk : Bool) (t : Nat)
    (store files : List UploadedFile) (f : FileInput)
    (hType : f.type ∈ acceptedFileTypes) (hSize : f.size ≤ MAX_FILE_SIZE_BYTES) :
    (handleUpload enc cre listOk t false store files f).flagWasSet = true ∧
    (handleUpload enc cre listOk t false store files f).isUploading = false ∧
    (∀ dataUrl newId, enc = .ok dataUrl → cre = .ok newId → listOk = true →
      (handleUpload enc cre listOk t false store files f).store =
        store ++ [⟨newId, f.name, dataUrl, f.size, f.type, t⟩] ∧
      (handleUpload enc cre listOk t false store files f).alerted = none ∧
      List.Perm (handleUpload enc cre listOk t false store files f).files
        (store ++ [⟨newId, f.name, dataUrl, f.size, f.type, t⟩]) ∧
      List.Pairwise (fun a b : UploadedFile => b.createdAt ≤ a.createdAt)
        (handleUpload enc cre listOk t false store files f).files) ∧
    ((enc = .error () ∨ cre = .error () ∨ listOk = false) →
      (handleUpload enc cre listOk t false store files f).alerted = some uploadErrorMsg ∧
      (handleUpload enc cre listOk t false store files f).files = files) := by
  have hc : acceptedFileTypes.contains f.type = true := List.elem_iff.mpr hType
  have hs : ¬ f.size > MAX_FILE_SIZE_BYTES := Nat.not_lt.mpr hSize
  cases enc with
  | error e =>
    refine ⟨?_, ?_, ?_, ?_⟩
    · simp [handleUpload, hc, hs, hType]
    · simp [handleUpload, hc, hs, hType]
    · intro d i hd hi hl
      cases hd
    · intro hfail
      constructor <;> simp [handleUpload, hc, hs, hType]
  | ok d0 =>
    cases cre with
    | error e =>
      refine ⟨?_, ?_, ?_, ?_⟩
      · simp [handleUpload, hc, hs, hType]
      · simp [handleUpload, hc, hs, hType]
      · intro d i hd hi hl
        cases hi
      · intro hfail
        constructor <;> simp [handleUpload, hc, hs, hType]
    | ok i0 =>
      cases listOk with
      | false =>
        refine ⟨?_, ?_, ?_, ?_⟩
        · simp [handleUpload, hc, hs, hType]
        · simp [handleUpload, hc, hs, hType]
        · intro d i hd hi hl
          cases hl
        · intro hfail
          constructor <;> simp [handleUpload, hc, hs, hType]
      | true =>
        refine ⟨?_, ?_, ?_, ?_⟩
        · simp [handleUpload, hc, hs, hType]
        · simp [handleUpload, hc, hs, hType]
        · intro d i hd hi hl
          cases hd
          cases hi
          have hfe : (handleUpload (.ok d0) (.ok i0) true t false store files f).files =
              fetchFiles (store ++ [⟨i0, f.name, d0, f.size, f.type, t⟩]) := by
            simp [handleUpload, hc, hs, hType]
          refine ⟨?_, ?_, ?_, ?_⟩
          · simp [handleUpload, hc, hs, hType]
          · simp [handleUpload, hc, hs, hType]
          · rw [hfe]
            exact sortByCreatedAtDesc_perm _
          · rw [hfe]
            exact sortByCreatedAtDesc_sorted _
        · intro habs
          rcases habs with habs | habs | habs <;> cases habs

/-- Witness for C2 at a concrete successful upload: a 10-byte PNG lands in
the store as one new record and the list is reloaded from the store. -/
theorem C2_upload_sequence_witness :
    ((⟨"a.png", 10, "image/png"⟩ : FileInput).type ∈ acceptedFileTypes ∧
      (⟨"a.png", 10, "image/png"⟩ : FileInput).size ≤ MAX_FILE_SIZE_BYTES) ∧
    (handleUpload (.ok "data:x") (.ok "id1") true 7 false [] [] ⟨"a.png", 10, "image/png"⟩).flagWasSet = true ∧
    (handleUpload (.ok "data:x") (.ok "id1") true 7 false [] [] ⟨"a.png", 10, "image/png"⟩).isUploading = false ∧
    (handleUpload (.ok "data:x") (.ok "id1") true 7 false [] [] ⟨"a.png", 10, "image/png"⟩).store =
      [] ++ [⟨"id1", "a.png", "data:x", 10, "image/png", 7⟩] ∧
    (handleUpload (.ok "data:x") (.ok "id1") true 7 false [] [] ⟨"a.png", 10, "image/png"⟩).alerted = none :=
  ⟨⟨by decide, by decide⟩,
   (C2_upload_sequence (.ok "data:x") (.ok "id1") true 7 [] [] ⟨"a.png", 10, "image/png"⟩
      (by decide) (by decide)).1,
   (C2_upload_sequence (.ok "data:x") (.ok "id1") true 7 [] [] ⟨"a.png", 10, "image/png"⟩
      (by decide) (by decide)).2.1,
   ((C2_upload_sequence (.ok "data:x") (.ok "id1") true 7 [] [] ⟨"a.png", 10, "image/png"⟩
      (by decide) (by decide)).2.2.1 "data:x" "id1" rfl rfl rfl).1,
   ((C2_upload_sequence (.ok "data:x") (.ok "id1") true 7 [] [] ⟨"a.png", 10, "image/png"⟩
      (by decide) (by decide)).2.2.1 "data:x" "id1" rfl rfl rfl).2.1⟩

/-- Claim C10: the size ceiling comparison is strict — with an accepted
MIME type and healthy store effects, a file of exactly 750 * 1024 bytes is
uploaded (no alert, one record appended), while a file of 750 * 1024 + 1
bytes is rejected with the size alert and no store create. -/
theorem C10_size_boundary (dataUrl newId : String) (t : Nat)
    (store files : List UploadedFile) (f : FileInput)
    (hType : f.type ∈ acceptedFileTypes) :
    (f.size = 750 * 1024 →
      (handleUpload (.ok dataUrl) (.ok newId) true t false store files f).alerted = none ∧
      (handleUpload (.ok dataUrl) (.ok newId) true t false store files f).store =
        store ++ [⟨newId, f.name, dataUrl, f.size, f.type, t⟩]) ∧
    (f.size = 750 * 1024 + 1 →
      (handleUpload (.ok dataUrl) (.ok newId) true t false store files f).alerted = some tooLargeMsg ∧
      (handleUpload (.ok dataUrl) (.ok newId) true t false store files f).store = store) := by
  have hc : acceptedFileTypes.contains f.type = true := List.elem_iff.mpr hType
  constructor
  · intro hsz
    have hs : ¬ f.size > MAX_FILE_SIZE_BYTES := by
      rw [hsz]
      decide
    constructor <;> simp [handleUpload, hc, hs, hType]
  · intro hsz
    have hs : f.size > MAX_FILE_SIZE_BYTES := by
      rw [hsz]
      decide
    constructor <;> simp [handleUpload, hc, hs, hType]

/-- Witness for C10: a PNG of exactly 768000 bytes uploads, and one of
768001 bytes is rejected as too large. -/
theorem C10_size_boundary_witness :
    ("image/png" ∈ acceptedFileTypes) ∧
    ((⟨"b.png", 750 * 1024, "image/png"⟩ : FileInput).size = 750 * 1024 ∧
      (handleUpload (.ok "d") (.ok "i") true 0 false [] [] ⟨"b.png", 750 * 1024, "image/png"⟩).alerted = none) ∧
    ((⟨"c.png", 750 * 1024 + 1, "image/png"⟩ : FileInput).size = 750 * 1024 + 1 ∧
      (handleUpload (.ok "d") (.ok "i") true 0 false [] [] ⟨"c.png", 750 * 1024 + 1, "image/png"⟩).alerted =
        some tooLargeMsg) :=
  ⟨by decide,
   ⟨rfl, ((C10_size_boundary "d" "i" 0 [] [] ⟨"b.png", 750 * 1024, "image/png"⟩ (by decide)).1 rfl).1⟩,
   ⟨rfl, ((C10_size_boundary "d" "i" 0 [] [] ⟨"c.png", 750 * 1024 + 1, "image/png"⟩ (by decide)).2 rfl).1⟩⟩

/-- Does a viewer render outcome show the error view? -/
def isErrorView : ViewerRender → Bool
  | .errorView _ _ => true
  | _ => false

/-- Claim C3 counterexample: the claim says a second copy cancels the
pending clear timer of the first copy and that the indicator clears 2
seconds after being set if untouched. In the code no timer is ever
cancelled: after copying record A at instant 0 and record B at instant
1000, the timer from A (expiry 2000) is still pending, and when it fires at
instant 2000 it clears the indicator for B — only 1 second after B was set
and with B untouched in between. -/
theorem C3_copy_counterexample :
    copyAt true (copyAt true ⟨none, []⟩ "A" 0) "B" 1000 =
      ⟨some "B", [2000, 3000]⟩ ∧
    (fireDueTimers (copyAt true (copyAt true ⟨none, []⟩ "A" 0) "B" 1000) 2000).copiedUrlId =
      none ∧
    2000 < 1000 + 2000 := by
  decide

/-- Claim C3 (amended): at most one record shows the copied indicator at
any instant and a later copy overwrites the indicator value (last write
wins on the value); but a pending clear timer from an earlier copy is NOT
cancelled — it stays scheduled and will clear the later indicator when it
fires; the indicator auto-clears exactly 2 seconds after being set only
when no earlier clear timer is pending. -/
theorem C3_copy_indicator (st : CopyState) (x y idB : String) (t u : Nat) :
    (showsCopied st x = true → showsCopied st y = true → x = y) ∧
    (copyAt true st idB t).copiedUrlId = some idB ∧
    (∀ e ∈ st.pendingClears, t < e → e ∈ (copyAt true st idB t).pendingClears) ∧
    (st.pendingClears = [] → t ≤ u → u < t + 2000 →
      (fireDueTimers (copyAt true st idB t) u).copiedUrlId = some idB) ∧
    (st.pendingClears = [] →
      (fireDueTimers (copyAt true st idB t) (t + 2000)).copiedUrlId = none) := by
  refine ⟨?_, ?_, ?_, ?_, ?_⟩
  · intro h1 h2
    rw [showsCopied, beq_iff_eq] at h1 h2
    rw [h1] at h2
    exact Option.some.inj h2
  · simp [copyAt, handleCopyUrl]
  · intro e he hte
    rw [copyAt, handleCopyUrl, if_pos rfl]
    apply List.mem_append_left
    rw [fireDueTimers]
    by_cases hany : st.pendingClears.any (fun e => e ≤ t) = true
    · rw [if_pos hany]
      exact List.mem_filter.mpr ⟨he, by simpa using hte⟩
    · rw [if_neg hany]
      exact he
  · intro hnil hle hlt
    have h1 : copyAt true st idB t = ⟨some idB, [t + 2000]⟩ := by
      simp [copyAt, handleCopyUrl, fireDueTimers, hnil]
    rw [h1, fireDueTimers]
    have h2 : ([t + 2000].any (fun e => e ≤ u)) = false := by
      simp [Nat.not_le.mpr hlt]
    rw [if_neg (by simp [h2])]
  · intro hnil
    have h1 : copyAt true st idB t = ⟨some idB, [t + 2000]⟩ := by
      simp [copyAt, handleCopyUrl, fireDueTimers, hnil]
    rw [h1, fireDueTimers]
    rw [if_pos (by simp)]

/-- Witness for C3 at a concrete copy: with no earlier timer pending, the
indicator set for record B at instant 0 still shows at instant 1. -/
theorem C3_copy_indicator_witness :
    (showsCopied ⟨some "B", []⟩ "B" = true) ∧
    (([] : List Nat) = []) ∧ (0 : Nat) ≤ 1 ∧ (1 : Nat) < 0 + 2000 ∧
    (fireDueTimers (copyAt true ⟨none, []⟩ "B" 0) 1).copiedUrlId = some "B" :=
  ⟨by decide, rfl, by decide, by decide,
   (C3_copy_indicator ⟨none, []⟩ "A" "A" "B" 0 1).2.2.2.1 rfl (by decide) (by decide)⟩

/-- Claim C4 (code bug): for a successfully fetched record whose MIME type
selects neither the image branch nor the PDF branch — here `text/plain` —
the claim requires a defined terminal error view, but `FileViewer` falls
through to `return null` and renders nothing (a blank screen), not an
error view. -/
theorem C4_viewer_blank_screen :
    strStartsWith "text/plain" "image/" = false ∧
    ("text/plain" == "application/pdf") = false ∧
    renderViewer (fetchFileEffect
      (.found ⟨"notes.txt", "data:text/plain;base64,aGk=", 2, "text/plain", 0⟩)) =
      ViewerRender.nothing ∧
    isErrorView (renderViewer (fetchFileEffect
      (.found ⟨"notes.txt", "data:text/plain;base64,aGk=", 2, "text/plain", 0⟩))) = false := by
  decide

/-- Claim C5: the router state is a pure function of the fragment — after
splitting the text behind the hash mark on the separator and dropping
empty segments, segment 0 equal to `view` with a present non-empty
segment 1 yields the `view` route with that id and mounts the viewer;
otherwise (segment 0 differs, or segment 1 is missing or empty) the route
is `home` and the uploader mounts. -/
theorem C5_router (hash : String) :
    (∀ id, (routeParts hash)[0]? = some "view" → (routeParts hash)[1]? = some id →
      id ≠ "" →
      handleHashChange hash = ⟨"view", some id⟩ ∧
      appMount (handleHashChange hash) = Mounted.viewer id) ∧
    ((routeParts hash)[0]? ≠ some "view" ∨ jsTruthy (routeParts hash)[1]? = false →
      handleHashChange hash = ⟨"home", none⟩ ∧
      appMount (handleHashChange hash) = Mounted.uploader) := by
  constructor
  · intro id h0 h1 hne
    have hcond : ((routeParts hash)[0]? == some "view" &&
        jsTruthy (routeParts hash)[1]?) = true := by
      rw [h0, h1]
      simp [jsTruthy, hne]
    have hroute : handleHashChange hash = ⟨"view", some id⟩ := by
      rw [handleHashChange]
      rw [if_pos hcond, h1]
    refine ⟨hroute, ?_⟩
    rw [hroute]
    simp [appMount, hne]
  · intro hneg
    have hcond : ((routeParts hash)[0]? == some "view" &&
        jsTruthy (routeParts hash)[1]?) = false := by
      rcases hneg with h | h
      · have h2 : ((routeParts hash)[0]? == some "view") = false := by
          simpa using h
        simp [h2]
      · simp [h]
    have hroute : handleHashChange hash = ⟨"home", none⟩ := by
      simp only [handleHashChange, hcond, Bool.false_eq_true, if_false]
    exact ⟨hroute, by rw [hroute]; rfl⟩

/-- Witness for C5 at the concrete routes of the spec: `#/view/abc123`
mounts the viewer with id `abc123`; `#/view/` (missing id) mounts the
uploader. -/
theorem C5_router_witness :
    ((routeParts "#/view/abc123")[0]? = some "view") ∧
    ((routeParts "#/view/abc123")[1]? = some "abc123") ∧
    ("abc123" ≠ "") ∧
    handleHashChange "#/view/abc123" = ⟨"view", some "abc123"⟩ ∧
    appMount (handleHashChange "#/view/abc123") = Mounted.viewer "abc123" ∧
    jsTruthy (routeParts "#/view/")[1]? = false ∧
    handleHashChange "#/view/" = ⟨"home", none⟩ ∧
    appMount (handleHashChange "#/view/") = Mounted.uploader :=
  ⟨by decide, by decide, by decide,
   ((C5_router "#/view/abc123").1 "abc123" (by decide) (by decide) (by decide)).1,
   ((C5_router "#/view/abc123").1 "abc123" (by decide) (by decide) (by decide)).2,
   by decide,
   ((C5_router "#/view/").2 (Or.inr (by decide))).1,
   ((C5_router "#/view/").2 (Or.inr (by decide))).2⟩

/-- Indexing into the display-name update: the record at each position
keeps its identity, and exactly the record whose id matches gets the new
name. -/
theorem updateDisplayName_getElem (l : List UploadedFile) (id name : String)
    (i : Nat) (hi : i < l.length) :
    (updateDisplayName l id name)[i]? =
      some (if l[i].id = id then { l[i] with displayName := name } else l[i]) := by
  rw [updateDisplayName, List.getElem?_map, List.getElem?_eq_getElem hi]
  by_cases h : l[i].id = id
  · simp [h]
  · simp [h]

/-- Claim C6: a rename commit with a buffer that is empty after trimming is
a complete no-op (store, list and edit state unchanged); with a non-empty
trimmed buffer and a successful store update, the store record and the
in-memory list entry with the edited id both carry the trimmed name while
every other record is untouched, and no error is surfaced; if the store
update fails, the rename error is surfaced, edit mode is exited, and
neither the store nor the list changes. -/
theorem C6_rename_commit (updateOk : Bool) (store files : List UploadedFile)
    (ef : UploadedFile) (buf : String) :
    (strTrim buf = "" →
      handleSaveEdit updateOk store ⟨files, some ef, buf⟩ =
        ⟨store, files, some ef, buf, none⟩) ∧
    (strTrim buf ≠ "" → updateOk = true →
      (handleSaveEdit updateOk store ⟨files, some ef, buf⟩).alerted = none ∧
      (handleSaveEdit updateOk store ⟨files, some ef, buf⟩).editingFile = none ∧
      (∀ i, ∀ hi : i < store.length,
        (handleSaveEdit updateOk store ⟨files, some ef, buf⟩).store[i]? =
          some (if store[i].id = ef.id then { store[i] with displayName := strTrim buf }
            else store[i])) ∧
      (∀ i, ∀ hi : i < files.length,
        (handleSaveEdit updateOk store ⟨files, some ef, buf⟩).files[i]? =
          some (if files[i].id = ef.id then { files[i] with displayName := strTrim buf }
            else files[i]))) ∧
    (strTrim buf ≠ "" → updateOk = false →
      (handleSaveEdit updateOk store ⟨files, some ef, buf⟩).alerted = some renameErrorMsg ∧
      (handleSaveEdit updateOk store ⟨files, some ef, buf⟩).editingFile = none ∧
      (handleSaveEdit updateOk store ⟨files, some ef, buf⟩).store = store ∧
      (handleSaveEdit updateOk store ⟨files, some ef, buf⟩).files = files) := by
  refine ⟨?_, ?_, ?_⟩
  · intro htrim
    have hb : (strTrim buf != "") = false := by
      simp [htrim]
    simp [handleSaveEdit, hb]
  · intro htrim hok
    cases hok
    have hb : (strTrim buf != "") = true := by
      simpa using htrim
    have hst : (handleSaveEdit true store ⟨files, some ef, buf⟩).store =
        updateDisplayName store ef.id (strTrim buf) := by
      simp [handleSaveEdit, hb]
    have hfi : (handleSaveEdit true store ⟨files, some ef, buf⟩).files =
        updateDisplayName files ef.id (strTrim buf) := by
      simp [handleSaveEdit, hb]
    refine ⟨by simp [handleSaveEdit, hb], by simp [handleSaveEdit, hb], ?_, ?_⟩
    · intro i hi
      rw [hst]
      exact updateDisplayName_getElem store ef.id (strTrim buf) i hi
    · intro i hi
      rw [hfi]
      exact updateDisplayName_getElem files ef.id (strTrim buf) i hi
  · intro htrim hok
    cases hok
    have hb : (strTrim buf != "") = true := by
      simpa using htrim
    refine ⟨?_, ?_, ?_, ?_⟩ <;> simp [handleSaveEdit, hb]

/-- Witness for C6 at a concrete rename: committing the buffer padded as
a blank-wrapped name rewrites the single listed record to the trimmed
name. -/
theorem C6_rename_commit_witness :
    (strTrim " nuevo " ≠ "") ∧ (true = true) ∧
    (handleSaveEdit true [⟨"id1", "a.png", "d", 1, "image/png", 5⟩]
      ⟨[⟨"id1", "a.png", "d", 1, "image/png", 5⟩], some ⟨"id1", "a.png", "d", 1, "image/png", 5⟩, " nuevo "⟩).alerted = none ∧
    (handleSaveEdit true [⟨"id1", "a.png", "d", 1, "image/png", 5⟩]
      ⟨[⟨"id1", "a.png", "d", 1, "image/png", 5⟩], some ⟨"id1", "a.png", "d", 1, "image/png", 5⟩, " nuevo "⟩).editingFile = none :=
  ⟨by decide, rfl,
   ((C6_rename_commit true [⟨"id1", "a.png", "d", 1, "image/png", 5⟩]
      [⟨"id1", "a.png", "d", 1, "image/png", 5⟩] ⟨"id1", "a.png", "d", 1, "image/png", 5⟩
      " nuevo ").2.1 (by decide) rfl).1,
   ((C6_rename_commit true [⟨"id1", "a.png", "d", 1, "image/png", 5⟩]
      [⟨"id1", "a.png", "d", 1, "image/png", 5⟩] ⟨"id1", "a.png", "d", 1, "image/png", 5⟩
      " nuevo ").2.1 (by decide) rfl).2.1⟩

/-- Claim C7: a confirmed delete whose store call succeeds removes exactly
the targeted record from the in-memory list (the list becomes the original
with the target erased, and the target is gone), with no error; if the
store delete fails, the error is surfaced and both the list and the store
are unchanged. -/
theorem C7_delete_exact (deleteOk : Bool) (store files : List UploadedFile)
    (target : UploadedFile)
    (hnd : (files.map (fun r => r.id)).Nodup) (hmem : target ∈ files) :
    (deleteOk = true →
      (handleDelete true deleteOk store files target).files = files.erase target ∧
      target ∉ (handleDelete true deleteOk store files target).files ∧
      (handleDelete true deleteOk store files target).alerted = none) ∧
    (deleteOk = false →
      (handleDelete true deleteOk store files target).files = files ∧
      (handleDelete true deleteOk store files target).store = store ∧
      (handleDelete true deleteOk store files target).alerted = some deleteErrorMsg) := by
  constructor
  · intro hok
    cases hok
    have hfe : (handleDelete true true store files target).files =
        files.filter (fun r => r.id != target.id) := by
      simp [handleDelete]
    refine ⟨?_, ?_, by simp [handleDelete]⟩
    · rw [hfe]
      exact filter_id_ne_eq_erase files target hnd hmem
    · rw [hfe, filter_id_ne_eq_erase files target hnd hmem]
      exact (hnd.of_map).not_mem_erase
  · intro hok
    cases hok
    refine ⟨?_, ?_, ?_⟩ <;> simp [handleDelete]

/-- Witness for C7 at a concrete confirmed delete of the first of two
records. -/
theorem C7_delete_exact_witness :
    (([⟨"id1", "a", "d", 1, "image/png", 5⟩, ⟨"id2", "b", "e", 2, "application/pdf", 4⟩].map
        (fun r : UploadedFile => r.id)).Nodup) ∧
    ((⟨"id1", "a", "d", 1, "image/png", 5⟩ : UploadedFile) ∈
      [⟨"id1", "a", "d", 1, "image/png", 5⟩, ⟨"id2", "b", "e", 2, "application/pdf", 4⟩]) ∧
    (handleDelete true true []
      [⟨"id1", "a", "d", 1, "image/png", 5⟩, ⟨"id2", "b", "e", 2, "application/pdf", 4⟩]
      ⟨"id1", "a", "d", 1, "image/png", 5⟩).files =
      [⟨"id1", "a", "d", 1, "image/png", 5⟩, ⟨"id2", "b", "e", 2, "application/pdf", 4⟩].erase
        ⟨"id1", "a", "d", 1, "image/png", 5⟩ ∧
    (handleDelete true true []
      [⟨"id1", "a", "d", 1, "image/png", 5⟩, ⟨"id2", "b", "e", 2, "application/pdf", 4⟩]
      ⟨"id1", "a", "d", 1, "image/png", 5⟩).alerted = none :=
  ⟨by decide, by decide,
   ((C7_delete_exact true []
      [⟨"id1", "a", "d", 1, "image/png", 5⟩, ⟨"id2", "b", "e", 2, "application/pdf", 4⟩]
      ⟨"id1", "a", "d", 1, "image/png", 5⟩ (by decide) (by decide)).1 rfl).1,
   ((C7_delete_exact true []
      [⟨"id1", "a", "d", 1, "image/png", 5⟩, ⟨"id2", "b", "e", 2, "application/pdf", 4⟩]
      ⟨"id1", "a", "d", 1, "image/png", 5⟩ (by decide) (by decide)).1 rfl).2.2⟩

/-- Claim C8: the single viewer fetch always leaves the loading state —
every fetch outcome ends with `isLoading` false and a terminal state; a
fetch that resolves to no record yields the not-found error view with the
link back to the home route, a fetch that throws yields the error view
with the generic message, and the two messages are distinct. -/
theorem C8_viewer_terminal (res : FetchResult) :
    (fetchFileEffect res).isLoading = false ∧
    fetchFileEffect FetchResult.notFound = ⟨none, some notFoundMsg, false⟩ ∧
    fetchFileEffect FetchResult.threw = ⟨none, some loadErrorMsg, false⟩ ∧
    renderViewer (fetchFileEffect FetchResult.notFound) =
      ViewerRender.errorView notFoundMsg "/" ∧
    renderViewer (fetchFileEffect FetchResult.threw) =
      ViewerRender.errorView loadErrorMsg "/" ∧
    (notFoundMsg == loadErrorMsg) = false := by
  refine ⟨?_, by decide, by decide, by decide, by decide, by decide⟩
  cases res <;> rfl

/-- Claim C9: every successfully fetched record whose MIME type starts
with `image/` — including the vector type `image/svg+xml` — renders
through the image branch, with the encoded payload used directly as the
image source; never the PDF branch, never the fall-through. -/
theorem C9_image_branch (f : FileDoc) (h : strStartsWith f.type "image/" = true) :
    renderViewer (fetchFileEffect (FetchResult.found f)) =
      ViewerRender.imageView f.dataUrl f.displayName := by
  simp [fetchFileEffect, renderViewer, h]

/-- Witness for C9 at a concrete SVG record. -/
theorem C9_image_branch_witness :
    strStartsWith "image/svg+xml" "image/" = true ∧
    renderViewer (fetchFileEffect (FetchResult.found
      ⟨"logo.svg", "data:image/svg+xml;base64,PHN2Zz4=", 20, "image/svg+xml", 3⟩)) =
      ViewerRender.imageView "data:image/svg+xml;base64,PHN2Zz4=" "logo.svg" :=
  ⟨by decide,
   C9_image_branch ⟨"logo.svg", "data:image/svg+xml;base64,PHN2Zz4=", 20, "image/svg+xml", 3⟩
     (by decide)⟩
